import Mathlib

/-
Verification development for the Forecaster frontend core.

The definitions below are a shallow embedding of the JavaScript source:

  * src/My_App/frontend/src/components/ForecastChart.js
      pickValue, makeLabel, the data normalizer, getPopupPos,
      handleChartClick, the popup guard, splitSections, parseBullets
  * src/My_App/frontend/src/api/forecastService.js
      explainForecast (timeline normalization and the empty-timeline guard)
  * src/pages/Home.js
      handlePointSelect and the focused-explanation completion handler

JavaScript numbers are modelled as exact rationals extended with NaN and
signed infinities; records are association lists of field name to value
(JavaScript objects have unique keys, and all access is by lookup).
-/

namespace Forecaster

/-- JavaScript number: an exact rational, NaN, or a signed infinity.
Floating point rounding is not modelled; no claim depends on it. -/
inductive JSNum where
  | finite (q : ℚ)
  | nan
  | inf
  | neginf
deriving DecidableEq

/-- JavaScript field value. Both null and undefined are modelled as vnull:
every construct the embedded code applies to them (nullish coalescing,
truthiness, typeof number checks) treats them alike. -/
inductive JSVal where
  | vnull
  | vnum (n : JSNum)
  | vstr (s : String)
  | vbool (b : Bool)
deriving DecidableEq

/-- Number.isFinite on a JSNum. -/
def isFiniteN : JSNum → Bool
  | .finite _ => true
  | _ => false

/-- JavaScript truthiness. -/
def truthy : JSVal → Bool
  | .vnull => false
  | .vnum (.finite q) => decide (q ≠ 0)
  | .vnum .nan => false
  | .vnum _ => true
  | .vstr s => decide (s ≠ "")
  | .vbool b => b

/-- The JavaScript a || b operator. -/
def jsOr (a b : JSVal) : JSVal := if truthy a then a else b

/-- The JavaScript a ?? b (nullish coalescing) operator. -/
def nc (a b : JSVal) : JSVal := if a = .vnull then b else a

/-- Number.isFinite on a JSVal: true exactly for a finite number value. -/
def isFiniteV : JSVal → Bool
  | .vnum (.finite _) => true
  | _ => false

/-- The typeof v === "number" test (NaN and the infinities are numbers). -/
def isNumberV : JSVal → Bool
  | .vnum _ => true
  | _ => false

/-- A raw record: an association list from field name to value; lookup of an
absent field yields vnull (undefined). -/
abbrev RawRecord := List (String × JSVal)

/-- Field access p.k on a record: first binding wins, absent gives vnull. -/
def lookup : RawRecord → String → JSVal
  | [], _ => .vnull
  | (k0, v0) :: rest, k => if k0 = k then v0 else lookup rest k

/-- Set a field, as the object-literal override in a spread does: replace the
first binding of the key if present, otherwise append it. -/
def setField : RawRecord → String → JSVal → RawRecord
  | [], k, v => [(k, v)]
  | (k0, v0) :: rest, k, v =>
      if k0 = k then (k, v) :: rest else (k0, v0) :: setField rest k v

/- ------------------------------------------------------------------ -/
/- String and number conversion helpers (JavaScript builtins)          -/
/- ------------------------------------------------------------------ -/

/-- JavaScript whitespace characters used by trim, parseFloat and Number. -/
def isJsWs (c : Char) : Bool :=
  c = ' ' || c = '\t' || c = '\n' || c = '\r' || c = Char.ofNat 11 || c = Char.ofNat 12

/-- Trim whitespace from both ends of a character list. -/
def trimWs (cs : List Char) : List Char :=
  ((cs.dropWhile isJsWs).reverse.dropWhile isJsWs).reverse

/-- Decimal value of a digit list. -/
def digitsVal (cs : List Char) : Nat :=
  cs.foldl (fun a c => a * 10 + (c.toNat - 48)) 0

/-- Exact prefix test on character lists. -/
def startsWithChars : List Char → List Char → Bool
  | [], _ => true
  | _ :: _, [] => false
  | p :: ps, c :: cs => p = c && startsWithChars ps cs

/-- Ten to an integer power, as an exact rational. -/
def tenPow (e : ℤ) : ℚ := (10 : ℚ) ^ e

/-- Optional sign at the head of a numeric literal. -/
def takeSign : List Char → Bool × List Char
  | '-' :: r => (true, r)
  | '+' :: r => (false, r)
  | r => (false, r)

/-- Exponent suffix of a decimal literal: e or E, optional sign, digits.
Returns the exponent consumed (0 when absent) and the rest. parseFloat
ignores a dangling exponent marker without digits. -/
def takeExp (cs : List Char) : ℤ × List Char :=
  match cs with
  | c :: r =>
    if c = 'e' || c = 'E' then
      let (eneg, r1) := takeSign r
      let ds := r1.takeWhile Char.isDigit
      if ds.isEmpty then (0, cs)
      else ((if eneg then -(digitsVal ds : ℤ) else (digitsVal ds : ℤ)), r1.dropWhile Char.isDigit)
    else (0, cs)
  | [] => (0, cs)

/-- The parseFloat builtin: skip leading whitespace, optional sign, either
the literal Infinity or a longest decimal prefix digits [. digits] [exp];
NaN when no digits are found. Values are exact rationals. -/
def parseFloatChars (cs : List Char) : JSNum :=
  let cs0 := cs.dropWhile isJsWs
  let (neg, cs1) := takeSign cs0
  if startsWithChars "Infinity".data cs1 then (if neg then .neginf else .inf)
  else
    let intPart := cs1.takeWhile Char.isDigit
    let cs2 := cs1.dropWhile Char.isDigit
    let (fracPart, cs3) :=
      match cs2 with
      | '.' :: r => (r.takeWhile Char.isDigit, r.dropWhile Char.isDigit)
      | r => (([] : List Char), r)
    if intPart.isEmpty && fracPart.isEmpty then .nan
    else
      let (e, _) := takeExp cs3
      let mant : ℚ := (digitsVal intPart : ℚ) + (digitsVal fracPart : ℚ) / (10 : ℚ) ^ fracPart.length
      let q := mant * tenPow e
      .finite (if neg then -q else q)

/-- Value of a digit character in a given base, when valid. -/
def digitInBase (b : Nat) (c : Char) : Option Nat :=
  let v :=
    if c.isDigit then some (c.toNat - 48)
    else if 'a' ≤ c && c ≤ 'z' then some (c.toNat - 87)
    else if 'A' ≤ c && c ≤ 'Z' then some (c.toNat - 55)
    else none
  match v with
  | some n => if n < b then some n else none
  | none => none

/-- Radix literal body for Number(): all characters must be digits of the
base and at least one must be present. -/
def radixVal (b : Nat) : List Char → Option Nat
  | [] => none
  | cs => cs.foldlM (fun a c => (digitInBase b c).map (fun d => a * b + d)) 0

/-- Strict decimal form accepted by Number(): optional sign, Infinity or
digits [. digits] [exp], with the whole input consumed. -/
def strictDecimal (cs : List Char) : JSNum :=
  let (neg, cs1) := takeSign cs
  if cs1 = "Infinity".data then (if neg then .neginf else .inf)
  else
    let intPart := cs1.takeWhile Char.isDigit
    let cs2 := cs1.dropWhile Char.isDigit
    let (fracPart, cs3) :=
      match cs2 with
      | '.' :: r => (r.takeWhile Char.isDigit, r.dropWhile Char.isDigit)
      | r => (([] : List Char), r)
    if intPart.isEmpty && fracPart.isEmpty then .nan
    else
      match cs3 with
      | [] =>
        let mant : ℚ := (digitsVal intPart : ℚ) + (digitsVal fracPart : ℚ) / (10 : ℚ) ^ fracPart.length
        .finite (if neg then -mant else mant)
      | c :: r =>
        if c = 'e' || c = 'E' then
          let (eneg, r1) := takeSign r
          let ds := r1.takeWhile Char.isDigit
          if ds.isEmpty then .nan
          else if (r1.dropWhile Char.isDigit).isEmpty then
            let e : ℤ := if eneg then -(digitsVal ds : ℤ) else (digitsVal ds : ℤ)
            let mant : ℚ := (digitsVal intPart : ℚ) + (digitsVal fracPart : ℚ) / (10 : ℚ) ^ fracPart.length
            let q := mant * tenPow e
            .finite (if neg then -q else q)
          else .nan
        else .nan

/-- The Number() conversion of a string: trimmed; empty gives 0; hex, octal
and binary prefixed literals; otherwise the strict decimal form; anything
else is NaN. -/
def jsStrToNum (s : String) : JSNum :=
  let cs := trimWs s.data
  match cs with
  | [] => .finite 0
  | '0' :: 'x' :: r => match radixVal 16 r with | some n => .finite n | none => .nan
  | '0' :: 'X' :: r => match radixVal 16 r with | some n => .finite n | none => .nan
  | '0' :: 'o' :: r => match radixVal 8 r with | some n => .finite n | none => .nan
  | '0' :: 'O' :: r => match radixVal 8 r with | some n => .finite n | none => .nan
  | '0' :: 'b' :: r => match radixVal 2 r with | some n => .finite n | none => .nan
  | '0' :: 'B' :: r => match radixVal 2 r with | some n => .finite n | none => .nan
  | _ => strictDecimal cs

/-- The Number() conversion of a value. The vnull case renders Number(null);
in the embedded code it only ever sits behind a nullish-coalescing default,
so it is unreachable there. -/
def jsNumberV : JSVal → JSNum
  | .vnull => .finite 0
  | .vnum n => n
  | .vbool b => .finite (if b then 1 else 0)
  | .vstr s => jsStrToNum s

/-- Decimal rendering of an integer or rational, for the String() coercion.
Non-integer rationals print in fraction form; the embedded code only ever
converts strings and absent values, so this case decides no claim. -/
def numToString : JSNum → String
  | .finite q => if q.den = 1 then toString q.num else toString q
  | .nan => "NaN"
  | .inf => "Infinity"
  | .neginf => "-Infinity"

/-- The String() conversion of a value. -/
def jsToStringVal : JSVal → String
  | .vstr s => s
  | .vnull => "null"
  | .vbool b => if b then "true" else "false"
  | .vnum n => numToString n

/- ------------------------------------------------------------------ -/
/- ForecastChart.js: pickValue, makeLabel, the normalizer              -/
/- ------------------------------------------------------------------ -/

/-- The nullish-coalescing cascade of candidate fields in pickValue:
total, total_sales, sales, value, amount, y, sum, pred, predicted, with the
literal 0 as the final default. -/
def pickRaw (p : RawRecord) : JSVal :=
  nc (lookup p "total")
    (nc (lookup p "total_sales")
      (nc (lookup p "sales")
        (nc (lookup p "value")
          (nc (lookup p "amount")
            (nc (lookup p "y")
              (nc (lookup p "sum")
                (nc (lookup p "pred")
                  (nc (lookup p "predicted") (.vnum (.finite 0))))))))))

/-- The coercion step of pickValue: a string goes through parseFloat, any
other value is kept as is. -/
def chartNum : JSVal → JSVal
  | .vstr s => .vnum (parseFloatChars s.data)
  | v => v

/-- The final Number.isFinite guard of pickValue: keep a finite number,
anything else becomes 0. -/
def finitize : JSVal → JSNum
  | .vnum (.finite q) => .finite q
  | _ => .finite 0

/-- pickValue from ForecastChart.js: resolve the candidate cascade, coerce a
string through parseFloat, and default to 0 unless the result is finite. -/
def pickValue (p : RawRecord) : JSNum :=
  finitize (chartNum (pickRaw p))

/-- Month names used by makeLabel. -/
def MONTHS : List String :=
  ["Jan", "Feb", "Mar", "Apr", "May", "Jun", "Jul", "Aug", "Sep", "Oct", "Nov", "Dec"]

/-- Leftmost match of four digits, a dash and two digits, as the regex
exec in makeLabel finds it; returns the year and month digit groups. -/
def findYM : List Char → Option (List Char × List Char)
  | [] => none
  | c :: rest =>
    match c :: rest with
    | d1 :: d2 :: d3 :: d4 :: '-' :: m1 :: m2 :: _ =>
      if d1.isDigit && d2.isDigit && d3.isDigit && d4.isDigit && m1.isDigit && m2.isDigit then
        some ([d1, d2, d3, d4], [m1, m2])
      else findYM rest
    | _ => findYM rest

/-- makeLabel from ForecastChart.js: pattern match a year-month prefix and
render Mon YY, falling back to the raw string when no match is found. -/
def makeLabel (iso : JSVal) : String :=
  let s := jsToStringVal (jsOr iso (.vstr ""))
  match findYM s.data with
  | none => s
  | some (ys, ms) =>
    let monIdx := (max 0 (min 11 ((digitsVal ms : ℤ) - 1))).toNat
    (MONTHS.getD monIdx "") ++ " " ++ String.mk (ys.drop 2)

/-- One record of the chart data normalizer in ForecastChart.js: spread the
raw record, then override y with pickValue, source with
p.source || src || "history", and label with p.label || makeLabel(p.date). -/
def normPoint (src : String) (p : RawRecord) : RawRecord :=
  setField
    (setField
      (setField p "y" (.vnum (pickValue p)))
      "source" (jsOr (lookup p "source") (jsOr (.vstr src) (.vstr "history"))))
    "label" (jsOr (lookup p "label") (.vstr (makeLabel (lookup p "date"))))

/-- The merged chart data: normalized history before normalized forecast. -/
def chartData (history forecast : List RawRecord) : List RawRecord :=
  (history.map (normPoint "history")) ++ (forecast.map (normPoint "forecast"))

/- ------------------------------------------------------------------ -/
/- forecastService.js: explainForecast                                 -/
/- ------------------------------------------------------------------ -/

/-- A normalized row of the request timeline built by explainForecast. -/
structure ApiRow where
  date : String
  value : JSNum
  source : JSVal
deriving DecidableEq

/-- The date computation of explainForecast: (p.date || "").slice(0, 10).
On a truthy non-string date the real code would throw; the String()
coercion here is never reached by the documented data contract. -/
def sliceTen (v : JSVal) : String :=
  String.mk ((jsToStringVal v).data.take 10)

/-- One mapped row of explainForecast: date sliced to ten characters, value
through Number(p.value ?? p.total ?? p.sales ?? 0), source defaulted. -/
def normalizeRow (p : RawRecord) : ApiRow :=
  { date := sliceTen (jsOr (lookup p "date") (.vstr ""))
    value := jsNumberV (nc (lookup p "value") (nc (lookup p "total") (nc (lookup p "sales") (.vnum (.finite 0)))))
    source := jsOr (lookup p "source") (.vstr "actual") }

/-- The normalized request timeline of explainForecast: map every raw row,
then keep only rows with a nonempty date and a finite value. -/
def explainTimeline (rawTimeline : List RawRecord) : List ApiRow :=
  (rawTimeline.map normalizeRow).filter (fun r => !(r.date == "") && isFiniteN r.value)

/-- Outcome of explainForecast: either a synchronous result with no network
request, or a POST request carrying the normalized body. -/
inductive ExplainOutcome where
  | sync (summary : String)
  | request (timeline : List ApiRow) (focus : Option RawRecord)
deriving DecidableEq

/-- explainForecast from forecastService.js: normalize and filter the
timeline, return summary "" synchronously when it is empty, otherwise issue
the POST with the normalized timeline and the optional focus. -/
def explainForecast (rawTimeline : List RawRecord) (focus : Option RawRecord) : ExplainOutcome :=
  let timeline := explainTimeline rawTimeline
  if timeline.length = 0 then .sync "" else .request timeline focus

/- ------------------------------------------------------------------ -/
/- ForecastChart.js: popup placement and the click resolver            -/
/- ------------------------------------------------------------------ -/

/-- Card width constant CARD_W. -/
def CARD_W : ℚ := 420

/-- Card height constant CARD_MAX_H. -/
def CARD_MAX_H : ℚ := 260

/-- A point handed to onPointSelect: the four data fields plus the optional
anchor pixel coordinates cx and cy (absent when the constructing site does
not supply them). -/
structure FocusPt where
  date : JSVal
  label : JSVal
  value : JSVal
  source : JSVal
  cx : Option ℚ := none
  cy : Option ℚ := none
deriving DecidableEq

/-- getPopupPos from ForecastChart.js. The container width is
wrapEl?.clientWidth || 0, so an unmounted container gives width 0; the
horizontal flip is guarded by the truthiness of that width. -/
def getPopupPos (wrapEl : Option ℚ) (pt : FocusPt) : ℚ × ℚ :=
  let w : ℚ := wrapEl.getD 0
  let x0 : ℚ := pt.cx.getD 0 + 12
  let x : ℚ := if w ≠ 0 ∧ x0 + CARD_W > w then max 0 (pt.cx.getD 0 - CARD_W - 12) else x0
  let y0 : ℚ := pt.cy.getD 0 - CARD_MAX_H - 12
  let y : ℚ := if y0 < 0 then pt.cy.getD 0 + 12 else y0
  (x, y)

/-- The point literal built by handleChartClick from a normalized record:
date, label, value from y, source defaulted to history; no cx, no cy. -/
def projectPoint (p : RawRecord) : FocusPt :=
  { date := lookup p "date"
    label := lookup p "label"
    value := lookup p "y"
    source := jsOr (lookup p "source") (.vstr "history")
    cx := none
    cy := none }

/-- handleChartClick from ForecastChart.js: prefer the hover-tracked index
when it lands on a datum, else the payload carried by the click event, else
select nothing. -/
def handleChartClick (data : List RawRecord) (hoverIdx : Option Nat)
    (clickPayload : Option RawRecord) : Option FocusPt :=
  match hoverIdx with
  | some i =>
    match data.get? i with
    | some p => some (projectPoint p)
    | none =>
      match clickPayload with
      | some p => some (projectPoint p)
      | none => none
  | none =>
    match clickPayload with
    | some p => some (projectPoint p)
    | none => none

/-- The click resolution order as the specification words it: a valid
hover-tracked index first, else the click payload point, else no selection. -/
def resolveClickSpec (data : List RawRecord) (hoverIdx : Option Nat)
    (clickPayload : Option RawRecord) : Option FocusPt :=
  match hoverIdx.bind data.get? with
  | some p => some (projectPoint p)
  | none =>
    match clickPayload with
    | some p => some (projectPoint p)
    | none => none

/-- The popup guard of ForecastChart.js: the layout is computed only for a
focus point whose label is truthy and whose value, cx and cy are numbers. -/
def popupFor (wrapEl : Option ℚ) (focusPoint : Option FocusPt) : Option (ℚ × ℚ) :=
  match focusPoint with
  | none => none
  | some fp =>
    if truthy fp.label && isNumberV fp.value && fp.cx.isSome && fp.cy.isSome
    then some (getPopupPos wrapEl fp)
    else none

/- ------------------------------------------------------------------ -/
/- ForecastChart.js: the explanation text formatter                    -/
/- ------------------------------------------------------------------ -/

/-- Case-insensitive literal match; the pattern is given lowercase. -/
def matchCILit : List Char → List Char → Option (List Char)
  | [], cs => some cs
  | _ :: _, [] => none
  | p :: ps, c :: cs => if c.toLower = p then matchCILit ps cs else none

/-- One mandatory star and a greedy optional second, as in the marker
regex; greediness agrees with backtracking here because a star can never
also match the literal that follows. -/
def matchStars : List Char → Option (List Char)
  | '*' :: '*' :: rest => some rest
  | '*' :: rest => some rest
  | _ => none

/-- Match of the section marker regex at the head of the input: a newline,
whitespace, one or two stars, the case-insensitive literal next action with
an optional s, a colon, one or two stars, then trailing whitespace. Returns
the input remaining after the match. -/
def matchMarker : List Char → Option (List Char)
  | '\n' :: rest =>
    match matchStars (rest.dropWhile isJsWs) with
    | none => none
    | some r2 =>
      match matchCILit "next action".data r2 with
      | none => none
      | some r3 =>
        let r4 := match r3 with
          | c :: rr => if c.toLower = 's' then rr else r3
          | [] => r3
        match r4 with
        | ':' :: r5 =>
          match matchStars r5 with
          | some r6 => some (r6.dropWhile isJsWs)
          | none => none
        | _ => none
  | _ => none

/-- Split on every occurrence of the marker, fuelled by the input length
(each step consumes at least one character, so the fuel never runs out on
the initial call). -/
def splitMarkerAux : Nat → List Char → List Char → List String
  | _, [], cur => [String.mk cur.reverse]
  | 0, cs, cur => [String.mk (cur.reverse ++ cs)]
  | fuel + 1, c :: rest, cur =>
    match matchMarker (c :: rest) with
    | some rem => String.mk cur.reverse :: splitMarkerAux fuel rem []
    | none => splitMarkerAux fuel rest (c :: cur)

/-- String.split on the marker regex. -/
def jsSplitMarker (cs : List Char) : List String :=
  splitMarkerAux cs.length cs []

/-- Body and actions segments of a summary. -/
structure Sections where
  body : String
  actions : String
deriving DecidableEq

/-- splitSections from ForecastChart.js: trim, split on the marker regex,
and take the first two pieces, defaulting each to the empty string. -/
def splitSections (text : String) : Sections :=
  let pieces := jsSplitMarker (trimWs text.data)
  { body := pieces.getD 0 "", actions := pieces.getD 1 "" }

/-- Split on every \x0d?\x0a line break; a lone carriage return does not
separate lines. -/
def splitLinesAux : List Char → List Char → List String
  | [], cur => [String.mk cur.reverse]
  | '\r' :: '\n' :: rest, cur => String.mk cur.reverse :: splitLinesAux rest []
  | '\n' :: rest, cur => String.mk cur.reverse :: splitLinesAux rest []
  | c :: rest, cur => splitLinesAux rest (c :: cur)

/-- Strip one leading bullet glyph followed by whitespace, as the replace
of the bullet-marker regex does. -/
def stripBullet (s : String) : String :=
  match s.data with
  | c :: d :: rest =>
    if (c = '*' || c = '•' || c = '-') && isJsWs d then
      String.mk ((d :: rest).dropWhile isJsWs)
    else s
  | _ => s

/-- parseBullets from ForecastChart.js: split into lines, trim each, drop
blanks, strip one leading bullet glyph. -/
def parseBullets (s : String) : List String :=
  (((splitLinesAux s.data []).map (fun l => String.mk (trimWs l.data))).filter
    (fun l => !(l == ""))).map stripBullet

/- ------------------------------------------------------------------ -/
/- Home.js: the focus state controller                                 -/
/- ------------------------------------------------------------------ -/

/-- Focus state owned by Home.js, with the multiset of in-flight
explanation requests tagged by their focus point. -/
structure FocusState where
  focusPoint : Option FocusPt
  focusLoading : Bool
  focusSummary : String
  pending : List FocusPt
deriving DecidableEq

/-- The idle state before any selection. -/
def initialFocusState : FocusState :=
  { focusPoint := none, focusLoading := false, focusSummary := "", pending := [] }

/-- The synchronous part of handlePointSelect in Home.js: set the focus
point, enter loading with the placeholder text, and issue the explanation
request for this point. -/
def selectStep (st : FocusState) (pt : FocusPt) : FocusState :=
  { focusPoint := some pt
    focusLoading := true
    focusSummary := "Analyzing…"
    pending := st.pending ++ [pt] }

/-- The completion handler of handlePointSelect in Home.js: when the
response for the request tagged pt resolves with the given summary, the
code applies it unconditionally, with no generation counter and no
point-identity comparison against the current focus. -/
def completeStep (st : FocusState) (pt : FocusPt) (summary : String) : FocusState :=
  { st with
    focusSummary := if summary ≠ "" then summary else "No insight available."
    focusLoading := false
    pending := st.pending.erase pt }

/- ------------------------------------------------------------------ -/
/- Claim-side comparison definitions and concrete inputs               -/
/- ------------------------------------------------------------------ -/

/-- First non-nullish field among a key list, with the literal 0 default,
mirroring the shape of the coalescing cascade in pickValue. -/
def firstNonNull (p : RawRecord) : List String → JSVal
  | [] => .vnum (.finite 0)
  | k :: ks => nc (lookup p k) (firstNonNull p ks)

/-- The candidate list exactly as claim C2 words it: eight keys, no y. -/
def claimKeysC2 : List String :=
  ["total", "total_sales", "sales", "value", "amount", "sum", "pred", "predicted"]

/-- Value resolution following the words of claim C2: first non-null among
the eight listed keys, strings coerced, 0 when nothing finite remains. -/
def pickValueClaim (p : RawRecord) : JSNum :=
  finitize (chartNum (firstNonNull p claimKeysC2))

/-- The candidate list as the source orders it: y between amount and sum. -/
def sourceKeys : List String :=
  ["total", "total_sales", "sales", "value", "amount", "y", "sum", "pred", "predicted"]

/-- Value resolution over the corrected candidate list. -/
def pickValueAmended (p : RawRecord) : JSNum :=
  finitize (chartNum (firstNonNull p sourceKeys))

/-- Popup x as the claim C5 formula words it. -/
def specPopupX (cx w : ℚ) : ℚ :=
  if cx + 12 + CARD_W ≤ w then cx + 12 else max 0 (cx - CARD_W - 12)

/-- A focus point with given anchor coordinates and inert data fields. -/
def ptAt (cx cy : Option ℚ) : FocusPt :=
  { date := .vnull, label := .vnull, value := .vnull, source := .vnull, cx := cx, cy := cy }

/-- Concrete record with a value only under the y field and under sum. -/
def recC2 : RawRecord := [("y", .vnum (.finite 7)), ("sum", .vnum (.finite 3))]

/-- Concrete raw timeline record whose value does not parse as a number. -/
def recBadValue : RawRecord := [("date", .vstr "2024-01-01"), ("value", .vstr "abc")]

/-- Concrete history record with an untruncated timestamp date. -/
def recHist : RawRecord := [("date", .vstr "2024-01-05T00:00:00"), ("total", .vnum (.finite 100))]

/-- First selected point of the claim C1 scenario. -/
def ptJan : FocusPt :=
  { date := .vstr "2024-01-05", label := .vstr "Jan 24", value := .vnum (.finite 100),
    source := .vstr "history", cx := none, cy := none }

/-- Second selected point of the claim C1 scenario. -/
def ptFeb : FocusPt :=
  { date := .vstr "2024-02-01", label := .vstr "Feb 24", value := .vnum (.finite 150),
    source := .vstr "forecast", cx := none, cy := none }

/-- The claim C1 interleaving: select ptJan, select ptFeb, the ptFeb
response resolves, then the superseded ptJan response resolves late. -/
def c1Trace : FocusState :=
  completeStep
    (completeStep (selectStep (selectStep initialFocusState ptJan) ptFeb)
      ptFeb "February demand rises.")
    ptJan "January was flat."

/- ------------------------------------------------------------------ -/
/- Shared helper lemmas                                                -/
/- ------------------------------------------------------------------ -/

/-- The final guard of pickValue always yields a finite number. -/
theorem finitize_shape (v : JSVal) : ∃ q : ℚ, finitize v = .finite q := by
  rcases v with _ | n | s | b
  · exact ⟨0, rfl⟩
  · rcases n with q | _ | _ | _
    · exact ⟨q, rfl⟩
    · exact ⟨0, rfl⟩
    · exact ⟨0, rfl⟩
    · exact ⟨0, rfl⟩
  · exact ⟨0, rfl⟩
  · exact ⟨0, rfl⟩

/-- When the coerced candidate is not a finite number, pickValue gives 0. -/
theorem pickValue_nonfinite_default (p : RawRecord)
    (h : isFiniteV (chartNum (pickRaw p)) = false) : pickValue p = .finite 0 := by
  unfold pickValue
  generalize chartNum (pickRaw p) = v at h ⊢
  rcases v with _ | n | s | b
  · rfl
  · rcases n with q | _ | _ | _
    · simp [isFiniteV] at h
    · rfl
    · rfl
    · rfl
  · rfl
  · rfl

/-- Overriding one field leaves the lookup of every other field unchanged. -/
theorem lookup_setField_ne (p : RawRecord) (k k' : String) (v : JSVal) (h : k' ≠ k) :
    lookup (setField p k v) k' = lookup p k' := by
  induction p with
  | nil => simp [setField, lookup, Ne.symm h]
  | cons kv rest ih =>
    obtain ⟨k0, v0⟩ := kv
    by_cases hk : k0 = k
    · subst hk
      simp [setField, lookup, Ne.symm h]
    · by_cases hk' : k0 = k'
      · simp [setField, hk, lookup, hk', h]
      · simp [setField, hk, lookup, hk', ih]

/-- Every successful chart-area click selection is the cx-free projection
of some record. -/
theorem handleChartClick_project (data : List RawRecord) (hoverIdx : Option Nat)
    (payload : Option RawRecord) (pt : FocusPt)
    (hc : handleChartClick data hoverIdx payload = some pt) : ∃ r, pt = projectPoint r := by
  cases hoverIdx with
  | some i =>
    cases hd : data.get? i with
    | some p =>
      simp only [handleChartClick, hd] at hc
      exact ⟨p, (Option.some.inj hc).symm⟩
    | none =>
      cases payload with
      | some p =>
        simp only [handleChartClick, hd] at hc
        exact ⟨p, (Option.some.inj hc).symm⟩
      | none =>
        simp only [handleChartClick, hd] at hc
        exact Option.noConfusion hc
  | none =>
    cases payload with
    | some p =>
      simp only [handleChartClick] at hc
      exact ⟨p, (Option.some.inj hc).symm⟩
    | none =>
      simp only [handleChartClick] at hc
      exact Option.noConfusion hc

/- ------------------------------------------------------------------ -/
/- Claim theorems                                                      -/
/- ------------------------------------------------------------------ -/

/-- Claim C1: selecting ptJan and then ptFeb before the first request
resolves should leave a state reflecting ptFeb only. In the code of
handlePointSelect the late response for the superseded ptJan is applied
unconditionally: the final focus point is ptFeb, yet the summary is the
ptJan response, and the ptFeb response has been overwritten. -/
theorem claim_C1_stale_response_overwrites :
    c1Trace.focusPoint = some ptFeb
    ∧ c1Trace.focusSummary = "January was flat."
    ∧ c1Trace.focusSummary ≠ "February demand rises." := by decide

/-- Claim C2 counterexample: the source cascade also consults the y field
between amount and sum, so on a record carrying y = 7 and sum = 3 the code
yields 7 while the claimed eight-key list yields 3. -/
theorem claim_C2_counterexample :
    pickValue recC2 = JSNum.finite 7 ∧ pickValueClaim recC2 = JSNum.finite 3 := by decide

/-- Claim C2 amended: the normalized value equals the first non-null field
among the ordered candidate list total, total_sales, sales, value, amount,
y, sum, pred, predicted, numeric strings coerced, 0 otherwise. -/
theorem claim_C2_amended (p : RawRecord) : pickValue p = pickValueAmended p := rfl

/-- Claim C3: on an empty combined timeline, explainForecast issues no
network request and synchronously yields the empty-summary result. -/
theorem claim_C3_empty_timeline (focus : Option RawRecord) :
    explainForecast [] focus = ExplainOutcome.sync "" := rfl

/-- Claim C4 counterexample: a raw timeline record whose value does not
parse is dropped by the request normalizer of explainForecast rather than
kept with value 0: the normalized output is empty and the service returns
the empty-summary result without the record. -/
theorem claim_C4_counterexample :
    explainTimeline [recBadValue] = []
    ∧ explainForecast [recBadValue] none = ExplainOutcome.sync "" := by decide

/-- Claim C4 amended: only the chart normalizer recovers by defaulting; it
keeps every record, leaves the date field unchanged and yields value 0 when
the candidate coerces to nothing finite, while the request normalizer of
explainForecast keeps exactly the rows with a nonempty date and a finite
value, dropping the rest. -/
theorem claim_C4_amended (src : String) (p : RawRecord) (raw : List RawRecord) :
    lookup (normPoint src p) "date" = lookup p "date"
    ∧ (raw.map (normPoint src)).length = raw.length
    ∧ (isFiniteV (chartNum (pickRaw p)) = false → pickValue p = .finite 0)
    ∧ (explainTimeline raw).all (fun r => !(r.date == "") && isFiniteN r.value) = true := by
  refine ⟨?_, ?_, pickValue_nonfinite_default p, ?_⟩
  · unfold normPoint
    rw [lookup_setField_ne _ _ _ _ (by decide), lookup_setField_ne _ _ _ _ (by decide),
      lookup_setField_ne _ _ _ _ (by decide)]
  · simp
  · simp only [List.all_eq_true, explainTimeline]
    intro r hr
    exact (List.mem_filter.mp hr).2

/-- Claim C4 amended witness at a record with an unparsable value. -/
theorem claim_C4_amended_witness :
    pickValue [("value", JSVal.vstr "abc")] = JSNum.finite 0 :=
  (claim_C4_amended "history" [("value", JSVal.vstr "abc")] []).2.2.1 (by decide)

/-- Claim C5 counterexample: with container width 0 the code keeps
x = cx + 12 because the flip is guarded by the truthiness of the width,
while the claimed formula demands the flipped max(0, cx - W - 12). -/
theorem claim_C5_counterexample :
    (getPopupPos (some 0) (ptAt (some 0) (some 0))).1 = 12
    ∧ specPopupX 0 0 = 0
    ∧ (getPopupPos (some 0) (ptAt (some 0) (some 0))).1 ≠ specPopupX 0 0 := by
  refine ⟨?_, ?_, ?_⟩
  · norm_num [getPopupPos, ptAt, CARD_W, CARD_MAX_H]
  · norm_num [specPopupX, CARD_W]
  · norm_num [getPopupPos, ptAt, specPopupX, CARD_W, CARD_MAX_H]

/-- Claim C5 amended: for every nonzero container width the popup x follows
the claimed formula, and at width 0 the code keeps x = cx + 12. -/
theorem claim_C5_amended (cx w : ℚ) (cy : Option ℚ) :
    (w ≠ 0 → (getPopupPos (some w) (ptAt (some cx) cy)).1 = specPopupX cx w)
    ∧ (getPopupPos (some 0) (ptAt (some cx) cy)).1 = cx + 12 := by
  constructor
  · intro hw
    simp only [getPopupPos, specPopupX, ptAt, Option.getD_some]
    by_cases hc : cx + 12 + CARD_W ≤ w
    · rw [if_neg (fun hcontra => absurd hc (not_le.mpr hcontra.2)), if_pos hc]
    · rw [if_pos ⟨hw, lt_of_not_le hc⟩, if_neg hc]
  · simp [getPopupPos, ptAt]

/-- Claim C5 amended witness at cx = 5 in a container of width 300. -/
theorem claim_C5_amended_witness :
    (getPopupPos (some 300) (ptAt (some 5) none)).1 = specPopupX 5 300 :=
  (claim_C5_amended 5 300 none).1 (by simp)

/-- Claim C6: the click handler resolves exactly in the claimed order: a
valid hover-tracked index first, else the click payload point, else no
selection. -/
theorem claim_C6_resolution_order (data : List RawRecord) (hoverIdx : Option Nat)
    (clickPayload : Option RawRecord) :
    handleChartClick data hoverIdx clickPayload = resolveClickSpec data hoverIdx clickPayload := by
  cases hoverIdx with
  | none => rfl
  | some i =>
    cases hd : data.get? i with
    | some p => simp [handleChartClick, resolveClickSpec, hd]
    | none => cases clickPayload <;> simp [handleChartClick, resolveClickSpec, hd]

/-- Claim C7: the normalized value is always a finite number; a record
whose nine candidate fields are all absent gives 0, and so does one whose
resolved candidate coerces to nothing finite. -/
theorem claim_C7_value_always_finite (p : RawRecord) :
    (∃ q : ℚ, pickValue p = .finite q)
    ∧ ((lookup p "total" = .vnull ∧ lookup p "total_sales" = .vnull
        ∧ lookup p "sales" = .vnull ∧ lookup p "value" = .vnull
        ∧ lookup p "amount" = .vnull ∧ lookup p "y" = .vnull
        ∧ lookup p "sum" = .vnull ∧ lookup p "pred" = .vnull
        ∧ lookup p "predicted" = .vnull) → pickValue p = .finite 0)
    ∧ (isFiniteV (chartNum (pickRaw p)) = false → pickValue p = .finite 0) := by
  refine ⟨finitize_shape _, ?_, pickValue_nonfinite_default p⟩
  rintro ⟨h1, h2, h3, h4, h5, h6, h7, h8, h9⟩
  simp [pickValue, pickRaw, nc, h1, h2, h3, h4, h5, h6, h7, h8, h9, chartNum, finitize]

/-- Claim C7 witness at the empty record. -/
theorem claim_C7_witness :
    (∃ q : ℚ, pickValue [] = JSNum.finite q) ∧ pickValue [] = JSNum.finite 0 :=
  ⟨(claim_C7_value_always_finite []).1, (claim_C7_value_always_finite []).2.1 (by decide)⟩

/-- Claim C8: the formatter on the fixed narrative input yields body
bullets A and B and action bullets C and D. -/
theorem claim_C8_formatter_example :
    parseBullets (splitSections "A\nB\n**Next actions:**\nC\nD").body = ["A", "B"]
    ∧ parseBullets (splitSections "A\nB\n**Next actions:**\nC\nD").actions = ["C", "D"] := by
  decide

/-- Claim C9: the chart normalizer spreads the original record and adds or
overrides only the y, source and label fields; every other field, the date
string in particular, is passed through unmodified. -/
theorem claim_C9_spread_preserves (src : String) (p : RawRecord) (k : String)
    (hy : k ≠ "y") (hs : k ≠ "source") (hl : k ≠ "label") :
    lookup (normPoint src p) k = lookup p k := by
  unfold normPoint
  rw [lookup_setField_ne _ _ _ _ hl, lookup_setField_ne _ _ _ _ hs,
    lookup_setField_ne _ _ _ _ hy]

/-- Claim C9 witness: the timestamp date of a concrete record survives the
chart normalizer untruncated. -/
theorem claim_C9_witness :
    lookup (normPoint "history" recHist) "date" = lookup recHist "date" :=
  claim_C9_spread_preserves "history" recHist "date" (by decide) (by decide) (by decide)

/-- Claim C10: every point built by the chart-area click handler carries no
anchor coordinates, and the popup guard computes a layout only for a focus
point with a truthy label, numeric value and numeric cx and cy; hence a
chart-area click never yields a positioned annotation overlay. -/
theorem claim_C10_no_popup_from_chart_click :
    (∀ (data : List RawRecord) (hoverIdx : Option Nat) (payload : Option RawRecord)
        (wrapEl : Option ℚ) (pt : FocusPt),
        handleChartClick data hoverIdx payload = some pt →
        pt.cx = none ∧ pt.cy = none ∧ popupFor wrapEl (some pt) = none)
    ∧ (∀ (wrapEl : Option ℚ) (fp : FocusPt),
        popupFor wrapEl (some fp) ≠ none →
        (truthy fp.label && isNumberV fp.value && fp.cx.isSome && fp.cy.isSome) = true) := by
  constructor
  · intro data hoverIdx payload w pt hc
    obtain ⟨r, rfl⟩ := handleChartClick_project data hoverIdx payload pt hc
    exact ⟨rfl, rfl, by simp [popupFor, projectPoint]⟩
  · intro w fp hne
    by_cases hg : (truthy fp.label && isNumberV fp.value && fp.cx.isSome && fp.cy.isSome) = true
    · exact hg
    · exact absurd (by simp [popupFor, hg]) hne

/-- Claim C10 witness at a concrete record selected through the hover
index branch. -/
theorem claim_C10_witness :
    (projectPoint recHist).cx = none ∧ (projectPoint recHist).cy = none
    ∧ popupFor none (some (projectPoint recHist)) = none :=
  claim_C10_no_popup_from_chart_click.1 [recHist] (some 0) none none (projectPoint recHist)
    (by decide)

end Forecaster
